import Mathlib

/-!
Shallow embedding of the IterBot ReAct agent (`src/iterbot.py`).

Python strings are modelled as lists of characters (`PyStr`).  The Ollama
chat call is modelled as an opaque function from the message history to the
response text, and `json.loads` as an opaque function from the payload text
to either a parsed value or a decoder error message, mirroring the spec's
treatment of both as external collaborators.
-/

namespace IterBot

/-- Python strings, modelled as lists of characters. -/
abbrev PyStr := List Char

/-- ASCII whitespace as stripped by Python's `str.strip()` and matched by
the regex class `\s` (restricted to the characters that can occur in the
claims; the exotic unicode whitespace code points are included for the
line-separator set below but not needed here). -/
def pyIsSpace (c : Char) : Bool :=
  c == ' ' || c == '\t' || c == '\n' || c == '\r' || c == '\x0b' || c == '\x0c'

/-- Python `str.lstrip()`. -/
def pyLStrip (s : PyStr) : PyStr := s.dropWhile pyIsSpace

/-- Python `str.rstrip()`. -/
def pyRStrip (s : PyStr) : PyStr := (s.reverse.dropWhile pyIsSpace).reverse

/-- Python `str.strip()`. -/
def pyStrip (s : PyStr) : PyStr := pyRStrip (pyLStrip s)

/-- The line-break characters recognised by Python's `str.splitlines()`
(`\r\n` is handled as a single separator in `splitlinesAux`). -/
def isLineBreak (c : Char) : Bool :=
  c == '\n' || c == '\r' || c == '\x0b' || c == '\x0c' ||
  c == '\x1c' || c == '\x1d' || c == '\x1e' || c == '\x85' ||
  c == ' ' || c == ' '

/-- Worker for `splitlines`: `cur` is the partial current line. -/
def splitlinesAux : PyStr → PyStr → List PyStr
  | [], cur => if cur.isEmpty then [] else [cur]
  | '\r' :: '\n' :: rest, cur => cur :: splitlinesAux rest []
  | c :: rest, cur =>
      if isLineBreak c then cur :: splitlinesAux rest []
      else splitlinesAux rest (cur ++ [c])

/-- Python `str.splitlines()` (no trailing empty line for a trailing
separator, exactly as in Python). -/
def splitlines (s : PyStr) : List PyStr := splitlinesAux s []

/-- Index of the last space in `s`, if any: Python `s.rfind(' ')`, which the
source only consults after checking `' ' in s`. -/
def lastSpaceIdx : PyStr → Option Nat
  | [] => none
  | c :: rest =>
      match lastSpaceIdx rest with
      | some i => some (i + 1)
      | none => if c == ' ' then some 0 else none

/-- `IterBotReactAgent._validate_custom_prompt`.  The float comparison
`last_space > max_size * 0.8` is modelled exactly as `4 * max_size <
5 * last_space`; for every `max_size` small enough that `max_size * 0.8`
is computed without the IEEE rounding crossing an integer (all realistic
sizes), the two comparisons agree. -/
def validateCustomPrompt (customPrompt : Option PyStr) (maxSize : Nat) : Option PyStr :=
  match customPrompt with
  | none => none
  | some p0 =>
    if p0.isEmpty then none
    else
      let p1 := pyStrip p0
      if p1.isEmpty then none
      else if maxSize < p1.length then
        let p2 := pyStrip (p1.take maxSize)
        match lastSpaceIdx p2 with
        | some last => if 4 * maxSize < 5 * last then some (p2.take last) else some p2
        | none => some p2
      else some p1

/-- Does the pattern `Final Answer\s*:` (case-insensitive) match at the
head of `s`?  Building block for `re.search` of
`IterBotReactAgent._is_final_answer`. -/
def faMatchAt (s : PyStr) : Bool :=
  ((s.take 12).map Char.toLower == "final answer".data) &&
  (((s.drop 12).dropWhile pyIsSpace).headD 'x' == ':')

/-- `IterBotReactAgent._is_final_answer`: `re.search` looks for a match at
every position of the text. -/
def isFinalAnswer : PyStr → Bool
  | [] => false
  | c :: rest => faMatchAt (c :: rest) || isFinalAnswer rest

/-- Everything after the first `':'` of `s`, if `s` contains one:
Python `s.split(":", 1)[1]`. -/
def afterFirstColon : PyStr → Option PyStr
  | [] => none
  | c :: rest => if c == ':' then some rest else afterFirstColon rest

/-- Line scan of `IterBotReactAgent._extract_final_answer`.  The `none`
branch of `afterFirstColon` is unreachable for a line on which the pattern
matched (the pattern requires a colon); it is completed with the
fallback. -/
def extractFinalAnswerLines (content : PyStr) : List PyStr → PyStr
  | [] => content
  | line :: rest =>
      if isFinalAnswer line then
        match afterFirstColon line with
        | some tail => pyStrip tail
        | none => content
      else extractFinalAnswerLines content rest

/-- `IterBotReactAgent._extract_final_answer`. -/
def extractFinalAnswer (content : PyStr) : PyStr :=
  extractFinalAnswerLines content (splitlines content)

/-- The literal action marker `"Action:"`. -/
def actionMarker : PyStr := "Action:".data

/-- Fuel-indexed worker for `removeActionMarkers`; every step consumes at
least one character, so any fuel of at least `s.length` gives the
replacement result (the structural fuel keeps the definition computable by
the kernel). -/
def removeActionMarkersFuel : Nat → PyStr → PyStr
  | 0, _ => []
  | fuel + 1, s =>
      if actionMarker.isPrefixOf s then
        removeActionMarkersFuel fuel (s.drop actionMarker.length)
      else
        match s with
        | [] => []
        | c :: rest => c :: removeActionMarkersFuel fuel rest

/-- Python `line.replace("Action:", "")`: every (left-to-right,
non-overlapping) occurrence of the marker is removed. -/
def removeActionMarkers (s : PyStr) : PyStr :=
  removeActionMarkersFuel s.length s

/-- Does `s` contain an occurrence of the marker? -/
def containsActionMarker : PyStr → Bool
  | [] => false
  | c :: rest => actionMarker.isPrefixOf (c :: rest) || containsActionMarker rest

/-- The trimmed-prefix test of `_parse_action`:
`line.strip().startswith("Action:")`. -/
def isActionLine (line : PyStr) : Bool :=
  actionMarker.isPrefixOf (pyStrip line)

/-- The text `_parse_action` hands to `json.loads`:
`line.replace("Action:", "").strip()`. -/
def parseActionPayload (line : PyStr) : PyStr :=
  pyStrip (removeActionMarkers line)

/-- Python values produced by `json.loads` (JSON numbers restricted to
integers; the claims never depend on fractional values). -/
inductive Json where
  | null
  | bool (b : Bool)
  | num (n : Int)
  | str (s : String)
  | arr (xs : List Json)
  | obj (fields : List (String × Json))

mutual

/-- Python `==` on `json.loads` values: deep structural equality
(`json.loads` dicts keep insertion order; dict comparison is modelled on
that order). -/
def jsonEq : Json → Json → Bool
  | .null, .null => true
  | .bool a, .bool b => a == b
  | .num a, .num b => a == b
  | .str a, .str b => a == b
  | .arr a, .arr b => jsonListEq a b
  | .obj a, .obj b => jsonFieldsEq a b
  | _, _ => false

/-- Elementwise `jsonEq` on lists. -/
def jsonListEq : List Json → List Json → Bool
  | [], [] => true
  | x :: xs, y :: ys => jsonEq x y && jsonListEq xs ys
  | _, _ => false

/-- Elementwise `jsonEq` on key/value lists. -/
def jsonFieldsEq : List (String × Json) → List (String × Json) → Bool
  | [], [] => true
  | (k1, v1) :: xs, (k2, v2) :: ys => k1 == k2 && jsonEq v1 v2 && jsonFieldsEq xs ys
  | _, _ => false

end

instance : BEq Json := ⟨jsonEq⟩

/-- Python truthiness of a `json.loads` result, as tested by
`if not tool_call:` in `run`. -/
def jsonFalsy : Json → Bool
  | .null => true
  | .bool b => !b
  | .num n => n == 0
  | .str s => s.isEmpty
  | .arr xs => xs.isEmpty
  | .obj fs => fs.isEmpty

/-- First-match association-list lookup; Python dicts are modelled as
association lists with unique keys in insertion order. -/
def lookupStr : List (String × α) → String → Option α
  | [], _ => none
  | (k, v) :: rest, key => if k = key then some v else lookupStr rest key

/-- Python `str()` of a `json.loads` value, used only inside observation
messages (list/dict rendering is modelled loosely; no claim inspects it). -/
def pyStrOfJson : Json → PyStr
  | .null => "None".data
  | .bool true => "True".data
  | .bool false => "False".data
  | .num n => (toString n).data
  | .str s => s.data
  | .arr _ => "[...]".data
  | .obj _ => "\x7b...\x7d".data

/-- `tool_call["tool"]` / `tool_call["args"]`: subscripting a `json.loads`
value with a string key.  Missing keys raise `KeyError` (whose `str()` is
the quoted key); non-mapping values raise `TypeError` with the messages of
CPython. -/
def pyGetItem (v : Json) (key : String) : Except PyStr Json :=
  match v with
  | .obj fields =>
      match lookupStr fields key with
      | some x => Except.ok x
      | none => Except.error (("'" ++ key ++ "'").data)
  | .null => Except.error "'NoneType' object is not subscriptable".data
  | .bool _ => Except.error "'bool' object is not subscriptable".data
  | .num _ => Except.error "'int' object is not subscriptable".data
  | .str _ => Except.error "string indices must be integers".data
  | .arr _ => Except.error "list indices must be integers or slices, not str".data

/-- The abstract `json.loads` boundary: either a parsed value or the
decoder's error message (`str(e)` of the `JSONDecodeError`). -/
abbrev Loads := PyStr → Except PyStr Json

/-- The body `_parse_action` runs on one qualifying action line: `json.loads`
on the payload, a decode failure re-raised as
`ValueError(f"Invalid JSON in action: {e}")`. -/
def parseActionLine (loads : Loads) (line : PyStr) : Except PyStr (Option Json) :=
  match loads (parseActionPayload line) with
  | .ok v => .ok (some v)
  | .error e => .error ("Invalid JSON in action: ".data ++ e)

/-- The line scan of `_parse_action`: first line whose trimmed content
starts with `Action:` wins; no such line yields `None`. -/
def parseActionLines (loads : Loads) : List PyStr → Except PyStr (Option Json)
  | [] => .ok none
  | line :: rest =>
      if isActionLine line then parseActionLine loads line
      else parseActionLines loads rest

/-- `IterBotReactAgent._parse_action`. -/
def parseAction (loads : Loads) (content : PyStr) : Except PyStr (Option Json) :=
  parseActionLines loads (splitlines content)

/-- A registered tool: its rendered `inspect.signature` text and the
callable itself.  The callable receives the keyword arguments of the parsed
`args` mapping and either returns the `str()`-rendered result or raises
(the exception's text). -/
structure ToolEntry where
  sig : String
  fn : List (String × Json) → Except PyStr PyStr

/-- The tool registry: a Python dict, i.e. an association list with unique
keys in insertion order. -/
abbrev Registry := List (String × ToolEntry)

/-- `tool_name in self.tools`: string names are looked up; other hashable
values are simply absent from a string-keyed dict; unhashable values
(lists/dicts) raise `TypeError`. -/
def toolMembership (tools : Registry) (toolName : Json) : Except PyStr (Option ToolEntry) :=
  match toolName with
  | .str s => .ok (lookupStr tools s)
  | .arr _ => .error "unhashable type: 'list'".data
  | .obj _ => .error "unhashable type: 'dict'".data
  | _ => .ok none

/-- `(**args)`: keyword-argument unpacking requires a mapping. -/
def kwargsOf (args : Json) : Except PyStr (List (String × Json)) :=
  match args with
  | .obj fields => .ok fields
  | _ => .error "argument after ** must be a mapping".data

/-- The loop-detection test of `run` after `recent_actions.append(tool_name)`:
`len(recent_actions) >= 3 and recent_actions[-3:] == [tool_name]*3`. -/
def loopCond (recent' : List Json) (toolName : Json) : Bool :=
  decide (3 ≤ recent'.length) &&
  (recent'.drop (recent'.length - 3) == [toolName, toolName, toolName])

/-- `f"Observation: Error parsing tool call - {e}"`. -/
def errObs (e : PyStr) : PyStr := "Observation: Error parsing tool call - ".data ++ e

/-- `"Observation: No valid Action found."`. -/
def noActionObs : PyStr := "Observation: No valid Action found.".data

/-- `f"Observation: Repeated action '{tool_name}' detected. Stopping."`. -/
def loopObs (toolName : Json) : PyStr :=
  "Observation: Repeated action '".data ++ pyStrOfJson toolName ++ "' detected. Stopping.".data

/-- `f"Observation: Unknown tool '{tool_name}'"`. -/
def unknownObs (toolName : Json) : PyStr :=
  "Observation: Unknown tool '".data ++ pyStrOfJson toolName ++ "'".data

/-- Result of the `try`/`except` block of one iteration of `run`:
the observation text, whether a tool executed successfully
(`tool_executed`), whether the tool callable was applied at all
(instrumentation counting invocations), the updated `recent_actions`,
and whether the loop-detection `break` fired. -/
structure PResult where
  observation : PyStr
  toolExecuted : Bool
  invoked : Bool
  recent : List Json
  loopBreak : Bool

/-- The `try`/`except` block of one iteration of `run` (lines 166-190 of
`src/iterbot.py`): action parsing, truthiness test, field access, loop
detection, dispatch; every raised exception is caught and rendered as an
error observation. -/
def processResponse (tools : Registry) (loads : Loads)
    (content : PyStr) (recent : List Json) : PResult :=
  match parseAction loads content with
  | .error e => ⟨errObs e, false, false, recent, false⟩
  | .ok none => ⟨noActionObs, false, false, recent, false⟩
  | .ok (some tc) =>
    if jsonFalsy tc then ⟨noActionObs, false, false, recent, false⟩
    else
      match pyGetItem tc "tool" with
      | .error e => ⟨errObs e, false, false, recent, false⟩
      | .ok toolName =>
        match pyGetItem tc "args" with
        | .error e => ⟨errObs e, false, false, recent, false⟩
        | .ok args =>
          let recent' := recent ++ [toolName]
          if loopCond recent' toolName then
            ⟨loopObs toolName, false, false, recent', true⟩
          else
            match toolMembership tools toolName with
            | .error e => ⟨errObs e, false, false, recent', false⟩
            | .ok none => ⟨unknownObs toolName, false, false, recent', false⟩
            | .ok (some entry) =>
              match kwargsOf args with
              | .error e => ⟨errObs e, false, false, recent', false⟩
              | .ok kwargs =>
                match entry.fn kwargs with
                | .ok result => ⟨"Observation: ".data ++ result, true, true, recent', false⟩
                | .error e => ⟨errObs e, false, true, recent', false⟩

/-- Conversation roles. -/
inductive Role where
  | system
  | user
  | assistant
deriving DecidableEq

/-- One conversation message. -/
structure Message where
  role : Role
  content : PyStr
deriving DecidableEq

/-- The opaque model-inference boundary `ollama.chat`: the response text as
a function of the message history. -/
abbrev Model := List Message → PyStr

/-- Outcome of one pass of the `while` body of `run`. -/
inductive StepOut where
  | next (msgs : List Message) (recent : List Json)
  | answer (s : PyStr)
  | loopStop

/-- One pass of the `while` body together with the invocation flag. -/
structure StepRes where
  out : StepOut
  invoked : Bool

/-- One pass of the `while` body of `run` (lines 159-205 of
`src/iterbot.py`): model call, response processing, loop-detection
`break`, final-answer precedence, history append. -/
def stepOnce (tools : Registry) (loads : Loads) (model : Model)
    (msgs : List Message) (recent : List Json) : StepRes :=
  let content := model msgs
  let p := processResponse tools loads content recent
  if p.loopBreak then ⟨.loopStop, p.invoked⟩
  else if isFinalAnswer content && !p.toolExecuted then
    ⟨.answer (extractFinalAnswer content), p.invoked⟩
  else if p.toolExecuted || !(isFinalAnswer content) then
    ⟨.next (msgs ++ [⟨.assistant, content⟩, ⟨.user, p.observation⟩]) p.recent, p.invoked⟩
  else ⟨.answer (extractFinalAnswer content), p.invoked⟩

/-- `"Agent stopped: iteration limit reached."`. -/
def iterLimitMsg : PyStr := "Agent stopped: iteration limit reached.".data

/-- `"Agent stopped unexpectedly."`, returned after the loop-detection
`break` because the post-loop `iter_count >= max_iterations` test fails. -/
def unexpectedMsg : PyStr := "Agent stopped unexpectedly.".data

/-- What `run` returns, instrumented with the number of model invocations
and of tool invocations. -/
structure RunOut where
  result : PyStr
  modelCalls : Nat
  toolCalls : Nat
deriving DecidableEq

/-- The `while` loop of `run` with its post-loop returns; the fuel is
`max_iterations - iter_count`. -/
def runAux (tools : Registry) (loads : Loads) (model : Model) :
    Nat → List Message → List Json → RunOut
  | 0, _, _ => ⟨iterLimitMsg, 0, 0⟩
  | fuel + 1, msgs, recent =>
    let s := stepOnce tools loads model msgs recent
    let inv : Nat := if s.invoked then 1 else 0
    match s.out with
    | .loopStop => ⟨unexpectedMsg, 1, inv⟩
    | .answer a => ⟨a, 1, inv⟩
    | .next msgs' recent' =>
      let r := runAux tools loads model fuel msgs' recent'
      ⟨r.result, r.modelCalls + 1, r.toolCalls + inv⟩

/-- Agent configuration after `__init__` (the custom prompt is stored
already validated, as the constructor does). -/
structure Agent where
  tools : Registry
  maxIterations : Nat
  customSystemPrompt : Option PyStr

/-- The enumerated tool lines of `_generate_system_prompt`:
`f"{i}. {tool_name}{sig}"` with `enumerate(..., 1)`. -/
def toolDescriptionsFrom (i : Nat) : Registry → List PyStr
  | [] => []
  | (name, entry) :: rest =>
      ((toString i).data ++ ". ".data ++ name.data ++ entry.sig.data)
        :: toolDescriptionsFrom (i + 1) rest

/-- The full `tool_descriptions` list (1-indexed enumeration). -/
def toolDescriptions (tools : Registry) : List PyStr :=
  toolDescriptionsFrom 1 tools

/-- `"\n".join(tool_descriptions)`. -/
def joinLines : List PyStr → PyStr
  | [] => []
  | [l] => l
  | l :: rest => l ++ '\n' :: joinLines rest

/-- The base-prompt text preceding `{tools_text}` (verbatim from the
triple-quoted f-string, including its 8-space indentation). -/
def basePromptPre : String :=
  "You are a reasoning agent. You can use tools to solve problems step by step.\n        Available tools:\n        "

/-- The base-prompt text following `{tools_text}` (verbatim, `{{`/`}}`
unescaped to single braces as Python does). -/
def basePromptPost : String :=
  "\n\n        Use this format:\n        Thought: [your reasoning]\n        Action: \x7b\"tool\": \"tool_name\", \"args\": \x7barg1: val1, ...\x7d\x7d\n\n        IMPORTANT: After outputting an Action, STOP and wait for the Observation. Do NOT generate the Observation yourself.\n        The Observation will be provided to you automatically after the tool executes.\n        \n        Only after receiving real Observations can you output a Final Answer.\n        \n        When you have enough information, output:\n        Final Answer: [your final answer to the user]\n\n        Never generate fake Observations. Only output Thought and Action, then wait."

/-- `IterBotReactAgent._generate_system_prompt`. -/
def generateSystemPrompt (agent : Agent) : PyStr :=
  let toolsText := joinLines (toolDescriptions agent.tools)
  let basePrompt := basePromptPre.data ++ toolsText ++ basePromptPost.data
  match agent.customSystemPrompt with
  | some c =>
      if c.isEmpty then basePrompt
      else basePrompt ++ "\n\nAdditional instructions:\n".data ++ c
  | none => basePrompt

/-- `self.tools[name] = function`: overwrite in place if present, else
append (Python dict update semantics). -/
def dictSet (tools : Registry) (name : String) (entry : ToolEntry) : Registry :=
  if (lookupStr tools name).isSome then
    tools.map (fun p => if p.1 = name then (name, entry) else p)
  else tools ++ [(name, entry)]

/-- `del self.tools[name]` on a dict: drop the (unique) entry. -/
def dictDel : Registry → String → Registry
  | [], _ => []
  | (k, v) :: rest, name => if k = name then rest else (k, v) :: dictDel rest name

/-- `IterBotReactAgent.add_tool` (the stored `system_prompt` is modelled as
the pure recomputation `generateSystemPrompt`). -/
def addTool (agent : Agent) (name : String) (entry : ToolEntry) : Agent :=
  { agent with tools := dictSet agent.tools name entry }

/-- `IterBotReactAgent.remove_tool`: a no-op when the name is absent. -/
def removeTool (agent : Agent) (name : String) : Agent :=
  if (lookupStr agent.tools name).isSome then
    { agent with tools := dictDel agent.tools name }
  else agent

/-- `IterBotReactAgent.run`: initial two-message history, then the loop. -/
def runAgent (agent : Agent) (loads : Loads) (model : Model) (userInput : PyStr) : RunOut :=
  runAux agent.tools loads model agent.maxIterations
    [⟨Role.system, generateSystemPrompt agent⟩, ⟨Role.user, userInput⟩] []

/-- The run state after `k` completed (non-terminating) iterations, if the
run reaches it: history and `recent_actions`. -/
def histAt (tools : Registry) (loads : Loads) (model : Model) :
    Nat → List Message → List Json → Option (List Message × List Json)
  | 0, msgs, recent => some (msgs, recent)
  | k + 1, msgs, recent =>
      match (stepOnce tools loads model msgs recent).out with
      | .next msgs' recent' => histAt tools loads model k msgs' recent'
      | _ => none

/-! Concrete instances used by the witnesses and counterexamples. -/

/-- The JSON text `{"tool": "t", "args": {}}`. -/
def demoPayloadT : PyStr := "\x7b\"tool\": \"t\", \"args\": \x7b\x7d\x7d".data

/-- Its parsed value. -/
def demoJsonT : Json := .obj [("tool", .str "t"), ("args", .obj [])]

/-- A concrete `json.loads` oracle agreeing with the real decoder on the
payloads the witnesses use: it accepts exactly `demoPayloadT` and reports
the real CPython decoder message otherwise. -/
def demoLoads : Loads := fun s =>
  if s = demoPayloadT then .ok demoJsonT
  else .error "Expecting value: line 1 column 1 (char 0)".data

/-- A tool named `t` that always succeeds. -/
def demoTool : ToolEntry := ⟨"(x=1)", fun _ => .ok "12:00:00".data⟩

/-- A second callable for the same name. -/
def demoTool2 : ToolEntry := ⟨"(y=2)", fun _ => .ok "13:00:00".data⟩

/-- A registry holding only `t`. -/
def demoTools : Registry := [("t", demoTool)]

/-- An agent over `demoTools` with the default iteration budget. -/
def demoAgent : Agent := ⟨demoTools, 15, none⟩

/-- A response consisting of one well-formed action line. -/
def demoActionContent : PyStr := "Action: ".data ++ demoPayloadT

/-- A model that always answers with the action line. -/
def demoModelAction : Model := fun _ => demoActionContent

/-- A response holding both a well-formed action line and a final-answer
marker. -/
def demoBothContent : PyStr := demoActionContent ++ "\nFinal Answer: done".data

/-- A response with two action lines, both malformed. -/
def demoTwoActionsContent : PyStr := "Action: not-json\nAction: also-bad".data

/-- A response with one malformed action line. -/
def demoMalformedContent : PyStr := "Action: not-json".data

/-- A model that always answers with the malformed action line. -/
def demoModelMalformed : Model := fun _ => demoMalformedContent

/-- A response that is only a final answer. -/
def demoFinalContent : PyStr := "Final Answer: 42".data

/-- Second definition for claim C7, following the spec's words: the text
handed to the structured-value parser is "exactly everything after that
leading marker on the line, preserved character for character" — the
verbatim suffix after the first marker occurrence. -/
def specHandedText : PyStr → PyStr
  | [] => []
  | c :: rest =>
      if actionMarker.isPrefixOf (c :: rest) then (c :: rest).drop actionMarker.length
      else specHandedText rest

/-- An action line whose payload itself contains the marker. -/
def c7Line : PyStr := "Action: say Action: hi".data

/-! Auxiliary lemmas. -/

mutual

theorem jsonEq_refl : ∀ a : Json, jsonEq a a = true
  | .null => rfl
  | .bool b => by simp [jsonEq]
  | .num n => by simp [jsonEq]
  | .str s => by simp [jsonEq]
  | .arr xs => by simpa [jsonEq] using jsonListEq_refl xs
  | .obj fs => by simpa [jsonEq] using jsonFieldsEq_refl fs

theorem jsonListEq_refl : ∀ xs : List Json, jsonListEq xs xs = true
  | [] => rfl
  | x :: xs => by simp [jsonListEq, jsonEq_refl x, jsonListEq_refl xs]

theorem jsonFieldsEq_refl : ∀ xs : List (String × Json), jsonFieldsEq xs xs = true
  | [] => rfl
  | (k, v) :: xs => by simp [jsonFieldsEq, jsonEq_refl v, jsonFieldsEq_refl xs]

end

theorem listBeq_refl (l : List Json) : (l == l) = true := by
  induction l with
  | nil => rfl
  | cons a l ih =>
      show ((a :: l).beq (a :: l)) = true
      simp only [List.beq]
      have ha : (a == a) = true := jsonEq_refl a
      simp [ha]
      exact ih

/-- Appending the same name three times in a row satisfies the
loop-detection test. -/
theorem loopCond_triple (r : List Json) (t : Json) :
    loopCond (r ++ [t, t, t]) t = true := by
  unfold loopCond
  have hlen : (r ++ [t, t, t]).length = r.length + 3 := by simp
  have hdrop : (r ++ [t, t, t]).drop ((r ++ [t, t, t]).length - 3) = [t, t, t] := by
    rw [hlen]
    have h3 : r.length + 3 - 3 = r.length := by omega
    rw [h3]
    exact List.drop_left r [t, t, t]
  rw [hdrop, hlen]
  have h1 : ([t, t, t] == [t, t, t]) = true := listBeq_refl [t, t, t]
  rw [h1]
  simp

/-- The loop-detection test requires at least three recorded actions. -/
theorem loopCond_length {recent' : List Json} {t : Json}
    (h : loopCond recent' t = true) : 3 ≤ recent'.length := by
  unfold loopCond at h
  have := (Bool.and_eq_true _ _).mp h
  exact of_decide_eq_true this.1

/-- The loop-detection `break` can fire only when at least two actions were
already recorded before the iteration. -/
theorem processResponse_loopBreak_length (tools : Registry) (loads : Loads)
    (content : PyStr) (recent : List Json)
    (h : (processResponse tools loads content recent).loopBreak = true) :
    2 ≤ recent.length := by
  simp only [processResponse] at h
  repeat' split at h
  all_goals try simp_all
  rename_i toolName heq
  have h3 := loopCond_length heq
  simp only [List.length_append, List.length_cons, List.length_nil] at h3
  omega

/-- The line scan of `_parse_action` skips every non-qualifying line. -/
theorem parseActionLines_skip (loads : Loads) (pre ls : List PyStr)
    (h : ∀ l ∈ pre, isActionLine l = false) :
    parseActionLines loads (pre ++ ls) = parseActionLines loads ls := by
  induction pre with
  | nil => rfl
  | cons a pre ih =>
      have ha : isActionLine a = false := h a (List.mem_cons_self a pre)
      have hrest : ∀ l ∈ pre, isActionLine l = false :=
        fun l hl => h l (List.mem_cons_of_mem a hl)
      simp only [List.cons_append, parseActionLines, ha, Bool.false_eq_true, if_false]
      exact ih hrest

/-- Characterisation of a non-terminating pass of the `while` body: the
history grows by exactly the assistant response and the observation. -/
theorem stepOnce_next_eq (tools : Registry) (loads : Loads) (model : Model)
    (msgs : List Message) (recent : List Json) (m : List Message) (r : List Json)
    (h : (stepOnce tools loads model msgs recent).out = .next m r) :
    m = msgs ++ [⟨.assistant, model msgs⟩,
                 ⟨.user, (processResponse tools loads (model msgs) recent).observation⟩] ∧
    r = (processResponse tools loads (model msgs) recent).recent := by
  simp only [stepOnce] at h
  repeat' split at h
  all_goals simp_all

/-- Characterisation of an answering pass of the `while` body: `run`
returns an extracted final answer only when detection succeeded and no
tool was executed. -/
theorem stepOnce_answer_eq (tools : Registry) (loads : Loads) (model : Model)
    (msgs : List Message) (recent : List Json) (a : PyStr)
    (h : (stepOnce tools loads model msgs recent).out = .answer a) :
    isFinalAnswer (model msgs) = true ∧
    (processResponse tools loads (model msgs) recent).toolExecuted = false ∧
    a = extractFinalAnswer (model msgs) := by
  simp only [stepOnce] at h
  repeat' split at h
  all_goals simp_all

/-- The loop never calls the model more often than the remaining fuel. -/
theorem runAux_modelCalls_le (tools : Registry) (loads : Loads) (model : Model) :
    ∀ (fuel : Nat) (msgs : List Message) (recent : List Json),
      (runAux tools loads model fuel msgs recent).modelCalls ≤ fuel := by
  intro fuel
  induction fuel with
  | zero => intro msgs recent; simp [runAux]
  | succ n ih =>
      intro msgs recent
      simp only [runAux]
      cases h : (stepOnce tools loads model msgs recent).out with
      | next m r => exact Nat.succ_le_succ (ih m r)
      | answer a => exact Nat.succ_le_succ (Nat.zero_le n)
      | loopStop => exact Nat.succ_le_succ (Nat.zero_le n)

/-- The state after `k` completed iterations extends the initial history
by exactly `2 k` messages. -/
theorem histAt_append (tools : Registry) (loads : Loads) (model : Model) :
    ∀ (k : Nat) (msgs0 : List Message) (rec0 : List Json)
      (msgs : List Message) (rec : List Json),
      histAt tools loads model k msgs0 rec0 = some (msgs, rec) →
      ∃ extra : List Message, msgs = msgs0 ++ extra ∧ extra.length = 2 * k := by
  intro k
  induction k with
  | zero =>
      intro msgs0 rec0 msgs rec h
      simp only [histAt, Option.some_inj, Prod.mk.injEq] at h
      exact ⟨[], by rw [List.append_nil, h.1], by simp⟩
  | succ n ih =>
      intro msgs0 rec0 msgs rec h
      simp only [histAt] at h
      cases hs : (stepOnce tools loads model msgs0 rec0).out with
      | next m r =>
          rw [hs] at h
          obtain ⟨extra, hm, hlen⟩ := ih m r msgs rec h
          obtain ⟨hm0, _⟩ := stepOnce_next_eq tools loads model msgs0 rec0 m r hs
          refine ⟨[⟨Role.assistant, model msgs0⟩,
                   ⟨Role.user, (processResponse tools loads (model msgs0) rec0).observation⟩]
                    ++ extra, ?_, ?_⟩
          · rw [hm, hm0, List.append_assoc]
          · simp [hlen]; omega
      | answer a => rw [hs] at h; exact Option.noConfusion h
      | loopStop => rw [hs] at h; exact Option.noConfusion h

/-- The worker leaves the empty string empty at any fuel. -/
theorem removeActionMarkersFuel_nil (fuel : Nat) :
    removeActionMarkersFuel fuel [] = [] := by
  cases fuel <;> rfl

/-- Enough fuel makes the worker compute `str.replace`: the fuel argument
is irrelevant above the string length. -/
theorem removeActionMarkersFuel_stable :
    ∀ (fuel fuel' : Nat) (s : PyStr), s.length ≤ fuel → s.length ≤ fuel' →
      removeActionMarkersFuel fuel s = removeActionMarkersFuel fuel' s := by
  intro fuel
  induction fuel with
  | zero =>
      intro fuel' s h h'
      have hs : s = [] := List.eq_nil_of_length_eq_zero (by omega)
      subst hs
      rw [removeActionMarkersFuel_nil, removeActionMarkersFuel_nil]
  | succ n ih =>
      intro fuel' s h h'
      cases fuel' with
      | zero =>
          have hs : s = [] := List.eq_nil_of_length_eq_zero (by omega)
          subst hs
          rw [removeActionMarkersFuel_nil, removeActionMarkersFuel_nil]
      | succ m =>
          simp only [removeActionMarkersFuel]
          by_cases hp : actionMarker.isPrefixOf s
          · rw [if_pos hp, if_pos hp]
            have hpre : actionMarker <+: s := List.isPrefixOf_iff_prefix.mp hp
            have hlen : actionMarker.length ≤ s.length := hpre.length_le
            have h7 : actionMarker.length = 7 := by decide
            apply ih
            · simp only [List.length_drop]; omega
            · simp only [List.length_drop]; omega
          · rw [if_neg hp, if_neg hp]
            cases s with
            | nil => rfl
            | cons c rest =>
                have h1 : rest.length ≤ n := by simp at h; omega
                have h2 : rest.length ≤ m := by simp at h'; omega
                exact congrArg (List.cons c) (ih m rest h1 h2)

/-- `str.replace` removes a leading occurrence of the marker and continues
on the remainder. -/
theorem removeActionMarkers_marker_append (rest : PyStr) :
    removeActionMarkers (actionMarker ++ rest) = removeActionMarkers rest := by
  have hpre : actionMarker.isPrefixOf (actionMarker ++ rest) :=
    List.isPrefixOf_iff_prefix.mpr (List.prefix_append actionMarker rest)
  have h7 : actionMarker.length = 7 := by decide
  have hlen : (actionMarker ++ rest).length = rest.length + 7 := by
    simp [h7]; omega
  unfold removeActionMarkers
  rw [hlen]
  simp only [removeActionMarkersFuel, hpre, if_true]
  have hdrop : (actionMarker ++ rest).drop actionMarker.length = rest :=
    List.drop_left actionMarker rest
  rw [hdrop]
  exact removeActionMarkersFuel_stable (rest.length + 6) rest.length rest (by omega) (by omega)

/-- A string free of the marker is left unchanged by the replacement. -/
theorem removeActionMarkers_of_not_contains (s : PyStr)
    (h : containsActionMarker s = false) : removeActionMarkers s = s := by
  suffices haux : ∀ (fuel : Nat) (t : PyStr), t.length ≤ fuel →
      containsActionMarker t = false → removeActionMarkersFuel fuel t = t by
    exact haux s.length s le_rfl h
  intro fuel
  induction fuel with
  | zero =>
      intro t ht hc
      have hs : t = [] := List.eq_nil_of_length_eq_zero (by omega)
      subst hs
      rfl
  | succ n ih =>
      intro t ht hc
      cases t with
      | nil => exact removeActionMarkersFuel_nil (n + 1)
      | cons c rest =>
          simp only [containsActionMarker, Bool.or_eq_false_iff] at hc
          have hp : ¬(actionMarker.isPrefixOf (c :: rest) = true) := by
            simp [hc.1]
          simp only [removeActionMarkersFuel]
          rw [if_neg hp]
          have h1 : rest.length ≤ n := by simp at ht; omega
          exact congrArg (List.cons c) (ih rest h1 hc.2)

/-- Stripping never lengthens a string. -/
theorem pyStrip_length_le (s : PyStr) : (pyStrip s).length ≤ s.length := by
  have h1 : (pyLStrip s).length ≤ s.length := (List.dropWhile_sublist pyIsSpace).length_le
  have h2 : (pyRStrip (pyLStrip s)).length ≤ (pyLStrip s).length := by
    simp only [pyRStrip, List.length_reverse]
    simpa using (List.dropWhile_sublist (l := (pyLStrip s).reverse) pyIsSpace).length_le
  exact le_trans h2 h1

/-- A failed lookup means no entry carries the key. -/
theorem lookupStr_none_forall {α : Type _} {tools : List (String × α)} {name : String}
    (h : lookupStr tools name = none) : ∀ p ∈ tools, p.1 ≠ name := by
  induction tools with
  | nil => intro p hp; simp at hp
  | cons q rest ih =>
      obtain ⟨k, v⟩ := q
      intro p hp
      by_cases hk : k = name
      · simp [lookupStr, hk] at h
      · simp only [lookupStr, hk, if_false] at h
        rcases List.mem_cons.mp hp with hq | hq
        · subst hq; exact hk
        · exact ih h p hq

/-- Deleting a freshly appended key recovers the original registry. -/
theorem dictDel_append (tools : Registry) (name : String) (e : ToolEntry)
    (h : lookupStr tools name = none) :
    dictDel (tools ++ [(name, e)]) name = tools := by
  induction tools with
  | nil => simp [dictDel]
  | cons q rest ih =>
      obtain ⟨k, v⟩ := q
      by_cases hk : k = name
      · simp [lookupStr, hk] at h
      · simp only [lookupStr, hk, if_false] at h
        simp only [List.cons_append, dictDel, hk, if_false]
        exact congrArg (List.cons (k, v)) (ih h)

/-- Looking up a freshly appended key finds it when it was absent. -/
theorem lookupStr_append_self (tools : Registry) (name : String) (e : ToolEntry)
    (h : lookupStr tools name = none) :
    lookupStr (tools ++ [(name, e)]) name = some e := by
  induction tools with
  | nil => simp [lookupStr]
  | cons q rest ih =>
      obtain ⟨k, v⟩ := q
      by_cases hk : k = name
      · simp [lookupStr, hk] at h
      · simp only [lookupStr, hk, if_false] at h
        simp only [List.cons_append, lookupStr, hk, if_false]
        exact ih h

/-- The enumerated description list has one line per registry entry. -/
theorem toolDescriptionsFrom_length (tools : Registry) :
    ∀ j : Nat, (toolDescriptionsFrom j tools).length = tools.length := by
  induction tools with
  | nil => intro j; rfl
  | cons q rest ih =>
      obtain ⟨n, e⟩ := q
      intro j
      simp only [toolDescriptionsFrom, List.length_cons, ih (j + 1)]

/-- The `i`-th description line renders the `i`-th registry entry with the
enumeration index `j + i`. -/
theorem toolDescriptionsFrom_get (tools : Registry) :
    ∀ (j i : Nat) (n : String) (e : ToolEntry), tools[i]? = some (n, e) →
      (toolDescriptionsFrom j tools)[i]? =
        some ((toString (j + i)).data ++ ". ".data ++ n.data ++ e.sig.data) := by
  induction tools with
  | nil => intro j i n e h; simp at h
  | cons q rest ih =>
      obtain ⟨n0, e0⟩ := q
      intro j i n e h
      cases i with
      | zero =>
          simp only [List.getElem?_cons_zero, Option.some_inj, Prod.mk.injEq] at h
          simp only [toolDescriptionsFrom, List.getElem?_cons_zero, Option.some_inj,
            Nat.add_zero, h.1, h.2]
      | succ i' =>
          simp only [List.getElem?_cons_succ] at h
          simp only [toolDescriptionsFrom, List.getElem?_cons_succ]
          have := ih (j + 1) i' n e h
          rw [this]
          have harith : j + 1 + i' = j + (i' + 1) := by omega
          rw [harith]

/-- Every description line renders some registry entry. -/
theorem toolDescriptionsFrom_mem (tools : Registry) :
    ∀ (j : Nat) (l : PyStr), l ∈ toolDescriptionsFrom j tools →
      ∃ (i : Nat) (n : String) (e : ToolEntry), tools[i]? = some (n, e) ∧
        l = (toString (j + i)).data ++ ". ".data ++ n.data ++ e.sig.data := by
  induction tools with
  | nil => intro j l h; simp [toolDescriptionsFrom] at h
  | cons q rest ih =>
      obtain ⟨n0, e0⟩ := q
      intro j l h
      rcases List.mem_cons.mp h with h0 | h0
      · exact ⟨0, n0, e0, by simp, by simpa using h0⟩
      · obtain ⟨i, n, e, hget, hl⟩ := ih (j + 1) l h0
        refine ⟨i + 1, n, e, by simpa using hget, ?_⟩
        rw [hl]
        have harith : j + 1 + i = j + (i + 1) := by omega
        rw [harith]

/-- One iteration of the loop with a successfully executed registered
tool: the outcome of the `try` block. -/
theorem processResponse_exec (tools : Registry) (loads : Loads) (content : PyStr)
    (recent : List Json) (tc : Json) (name : String) (kwargs : List (String × Json))
    (entry : ToolEntry) (result : PyStr)
    (h1 : parseAction loads content = .ok (some tc))
    (h2 : jsonFalsy tc = false)
    (h3 : pyGetItem tc "tool" = .ok (.str name))
    (h4 : pyGetItem tc "args" = .ok (.obj kwargs))
    (h5 : loopCond (recent ++ [.str name]) (.str name) = false)
    (h6 : lookupStr tools name = some entry)
    (h7 : entry.fn kwargs = .ok result) :
    processResponse tools loads content recent =
      ⟨"Observation: ".data ++ result, true, true, recent ++ [.str name], false⟩ := by
  simp only [processResponse, h1, h2, h3, h4, h5, toolMembership, h6, kwargsOf, h7,
    Bool.false_eq_true, if_false]

/-- When a tool executed, the iteration appends the exchange and continues
regardless of final-answer detection. -/
theorem stepOnce_of_executed (tools : Registry) (loads : Loads) (model : Model)
    (msgs : List Message) (recent : List Json) (obs : PyStr) (rec' : List Json)
    (h : processResponse tools loads (model msgs) recent =
      ⟨obs, true, true, rec', false⟩) :
    stepOnce tools loads model msgs recent =
      ⟨.next (msgs ++ [⟨.assistant, model msgs⟩, ⟨.user, obs⟩]) rec', true⟩ := by
  simp only [stepOnce, h]
  simp

/-- With no final answer detected and no loop-detection `break`, the
iteration always continues, appending the exchange. -/
theorem stepOnce_not_final (tools : Registry) (loads : Loads) (model : Model)
    (msgs : List Message) (recent : List Json)
    (hfa : isFinalAnswer (model msgs) = false)
    (hnb : (processResponse tools loads (model msgs) recent).loopBreak = false) :
    stepOnce tools loads model msgs recent =
      ⟨.next (msgs ++ [⟨.assistant, model msgs⟩,
        ⟨.user, (processResponse tools loads (model msgs) recent).observation⟩])
        (processResponse tools loads (model msgs) recent).recent,
       (processResponse tools loads (model msgs) recent).invoked⟩ := by
  simp only [stepOnce, hnb, hfa]
  simp

/-! The claims. -/

/-- C5: for every registry, the synthesized system prompt contains a
1-indexed enumerated line for every registered tool exactly once, in the
registry's insertion order (the `i`-th rendered line is exactly the `i`-th
registry entry, and the line count equals the registry size), mentions no
tool that is not registered (every rendered line comes from a registry
entry), and the prompt embeds exactly these lines joined by newlines. -/
theorem c5_prompt_lists_tools (agent : Agent) :
    (toolDescriptions agent.tools).length = agent.tools.length ∧
    (∀ (i : Nat) (n : String) (e : ToolEntry), agent.tools[i]? = some (n, e) →
      (toolDescriptions agent.tools)[i]? =
        some ((toString (i + 1)).data ++ ". ".data ++ n.data ++ e.sig.data)) ∧
    (∀ l ∈ toolDescriptions agent.tools, ∃ (i : Nat) (n : String) (e : ToolEntry),
      agent.tools[i]? = some (n, e) ∧
      l = (toString (i + 1)).data ++ ". ".data ++ n.data ++ e.sig.data) ∧
    (∃ u v : PyStr, generateSystemPrompt agent =
      u ++ joinLines (toolDescriptions agent.tools) ++ v) := by
  refine ⟨toolDescriptionsFrom_length agent.tools 1, ?_, ?_, ?_⟩
  · intro i n e h
    have hg := toolDescriptionsFrom_get agent.tools 1 i n e h
    rwa [Nat.add_comm 1 i] at hg
  · intro l hl
    obtain ⟨i, n, e, hget, hl'⟩ := toolDescriptionsFrom_mem agent.tools 1 l hl
    exact ⟨i, n, e, hget, by rwa [Nat.add_comm 1 i] at hl'⟩
  · simp only [generateSystemPrompt]
    rcases agent.customSystemPrompt with _ | c
    · exact ⟨basePromptPre.data, basePromptPost.data, by simp [toolDescriptions]⟩
    · rcases he : c.isEmpty
      · refine ⟨basePromptPre.data,
          basePromptPost.data ++ "\n\nAdditional instructions:\n".data ++ c, ?_⟩
        simp [he, toolDescriptions]
      · exact ⟨basePromptPre.data, basePromptPost.data, by simp [he, toolDescriptions]⟩

/-- C5 witness: the registry holding only `t` renders the single line
`1. t(x=1)` and nothing else. -/
theorem c5_witness :
    ((toolDescriptions demoAgent.tools)[0]? =
      some ((toString (0 + 1)).data ++ ". ".data ++ "t".data ++ "(x=1)".data)) ∧
    (∃ (i : Nat) (n : String) (e : ToolEntry), demoAgent.tools[i]? = some (n, e) ∧
      "1. t(x=1)".data = (toString (i + 1)).data ++ ". ".data ++ n.data ++ e.sig.data) :=
  ⟨(c5_prompt_lists_tools demoAgent).2.1 0 "t" demoTool rfl,
   (c5_prompt_lists_tools demoAgent).2.2.1 "1. t(x=1)".data (by decide)⟩

/-- C6: action parsing is first-match — when the response splits into
lines with no qualifying line before `a`, line `a` qualifying, and at
least one later qualifying line, the parse result is determined entirely
by `a`. -/
theorem c6_first_match (loads : Loads) (content : PyStr) (pre rest : List PyStr) (a : PyStr)
    (hsplit : splitlines content = pre ++ a :: rest)
    (hpre : ∀ l ∈ pre, isActionLine l = false)
    (ha : isActionLine a = true)
    (_htwo : ∃ l ∈ rest, isActionLine l = true) :
    parseAction loads content = parseActionLine loads a := by
  unfold parseAction
  rw [hsplit, parseActionLines_skip loads pre (a :: rest) hpre]
  simp [parseActionLines, ha]

/-- C6 witness: with two malformed action lines, the reported decode
failure is the first line's. -/
theorem c6_witness :
    parseAction demoLoads demoTwoActionsContent =
      parseActionLine demoLoads "Action: not-json".data :=
  c6_first_match demoLoads demoTwoActionsContent [] ["Action: also-bad".data]
    "Action: not-json".data (by decide) (by intro l hl; simp at hl) (by decide)
    ⟨"Action: also-bad".data, by decide⟩

/-- C7 counterexample: on the line `Action: say Action: hi` the code hands
`say  hi` (every marker occurrence removed, whitespace stripped) to the
parser, not the verbatim after-marker text ` say Action: hi`. -/
theorem c7_counterexample :
    isActionLine c7Line = true ∧
    parseActionPayload c7Line ≠ specHandedText c7Line := by decide

/-- C7 (amended): the text handed to the structured-value parser is the
line with every occurrence of `Action:` removed and surrounding whitespace
stripped; in particular, for a line that is the marker followed by a
remainder free of further marker occurrences, it is the after-marker text
trimmed of whitespace (not preserved character for character). -/
theorem c7_amended (rest : PyStr) (h : containsActionMarker rest = false) :
    parseActionPayload (actionMarker ++ rest) = pyStrip rest := by
  unfold parseActionPayload
  rw [removeActionMarkers_marker_append rest, removeActionMarkers_of_not_contains rest h]

/-- C7 witness: `Action: hi` hands exactly `hi` to the parser. -/
theorem c7_witness : parseActionPayload (actionMarker ++ " hi".data) = "hi".data :=
  c7_amended " hi".data (by decide)

/-- C9 counterexample: with `t` already registered, `add_tool("t", g)`
followed by `remove_tool("t")` deletes the original entry, so the
synthesized prompt differs from its pre-add content. -/
theorem c9_counterexample :
    generateSystemPrompt (removeTool (addTool demoAgent "t" demoTool2) "t") ≠
      generateSystemPrompt demoAgent := by decide

/-- C9 (amended): for a tool name that is *not yet registered*, `add_tool`
followed by `remove_tool` of that name restores the agent — and hence the
synthesized system prompt — to its pre-add content. -/
theorem c9_add_remove_roundtrip (agent : Agent) (name : String) (entry : ToolEntry)
    (h : lookupStr agent.tools name = none) :
    removeTool (addTool agent name entry) name = agent ∧
    generateSystemPrompt (removeTool (addTool agent name entry) name) =
      generateSystemPrompt agent := by
  obtain ⟨tls, mi, cp⟩ := agent
  have htools : dictSet tls name entry = tls ++ [(name, entry)] := by
    simp [dictSet, h]
  have hlook : lookupStr (tls ++ [(name, entry)]) name = some entry :=
    lookupStr_append_self tls name entry h
  have hagent : removeTool (addTool ⟨tls, mi, cp⟩ name entry) name = ⟨tls, mi, cp⟩ := by
    simp only [addTool, removeTool, htools, hlook, Option.isSome_some, if_true]
    simp [dictDel_append tls name entry h]
  exact ⟨hagent, by rw [hagent]⟩

/-- C9 witness: adding then removing the fresh name `u` leaves the demo
agent and its prompt unchanged. -/
theorem c9_witness :
    removeTool (addTool demoAgent "u" demoTool2) "u" = demoAgent ∧
    generateSystemPrompt (removeTool (addTool demoAgent "u" demoTool2) "u") =
      generateSystemPrompt demoAgent :=
  c9_add_remove_roundtrip demoAgent "u" demoTool2 rfl

/-- C1: final-answer precedence.  First: a response parsing to a
well-formed action on a registered tool is executed and the iteration
continues (appending the exchange) even though the response also carries a
final-answer marker — provided the loop-detection guard does not fire and
the tool returns normally.  Second: `run` produces an extracted final
answer only from an iteration in which final-answer detection succeeded
and no tool was executed. -/
theorem c1_final_answer_precedence :
    (∀ (tools : Registry) (loads : Loads) (model : Model) (msgs : List Message)
       (recent : List Json) (tc : Json) (name : String) (kwargs : List (String × Json))
       (entry : ToolEntry) (result : PyStr),
       parseAction loads (model msgs) = .ok (some tc) →
       jsonFalsy tc = false →
       pyGetItem tc "tool" = .ok (.str name) →
       pyGetItem tc "args" = .ok (.obj kwargs) →
       isFinalAnswer (model msgs) = true →
       loopCond (recent ++ [.str name]) (.str name) = false →
       lookupStr tools name = some entry →
       entry.fn kwargs = .ok result →
       (processResponse tools loads (model msgs) recent).toolExecuted = true ∧
       stepOnce tools loads model msgs recent =
         ⟨.next (msgs ++ [⟨.assistant, model msgs⟩,
            ⟨.user, "Observation: ".data ++ result⟩]) (recent ++ [.str name]), true⟩) ∧
    (∀ (tools : Registry) (loads : Loads) (model : Model) (msgs : List Message)
       (recent : List Json) (a : PyStr),
       (stepOnce tools loads model msgs recent).out = .answer a →
       isFinalAnswer (model msgs) = true ∧
       (processResponse tools loads (model msgs) recent).toolExecuted = false ∧
       a = extractFinalAnswer (model msgs)) := by
  constructor
  · intro tools loads model msgs recent tc name kwargs entry result h1 h2 h3 h4 _hfa h5 h6 h7
    have hp := processResponse_exec tools loads (model msgs) recent tc name kwargs
      entry result h1 h2 h3 h4 h5 h6 h7
    refine ⟨by rw [hp], ?_⟩
    exact stepOnce_of_executed tools loads model msgs recent _ _ hp
  · intro tools loads model msgs recent a h
    exact stepOnce_answer_eq tools loads model msgs recent a h

/-- C1 witness: the response `Action: {"tool": "t", "args": {}}` +
`Final Answer: done` executes `t` and continues; and the pure
final-answer response `Final Answer: 42` returns the extracted `42`. -/
theorem c1_witness :
    ((processResponse demoTools demoLoads demoBothContent []).toolExecuted = true ∧
     stepOnce demoTools demoLoads (fun _ => demoBothContent) [] [] =
       ⟨.next ([] ++ [⟨.assistant, demoBothContent⟩,
          ⟨.user, "Observation: ".data ++ "12:00:00".data⟩]) ([] ++ [.str "t"]), true⟩) ∧
    (isFinalAnswer demoFinalContent = true ∧
     (processResponse demoTools demoLoads demoFinalContent []).toolExecuted = false ∧
     "42".data = extractFinalAnswer demoFinalContent) :=
  ⟨c1_final_answer_precedence.1 demoTools demoLoads (fun _ => demoBothContent) [] []
      demoJsonT "t" [] demoTool "12:00:00".data rfl rfl rfl rfl (by decide) (by decide)
      rfl rfl,
   c1_final_answer_precedence.2 demoTools demoLoads (fun _ => demoFinalContent) [] []
      "42".data rfl⟩

/-- C2 counterexample: a model that repeats the same action is stopped at
the third attempt after exactly two tool invocations and three model
calls, but `run` returns the generic `"Agent stopped unexpectedly."` — not
the descriptive loop-detected message (which is only printed): the
post-loop `iter_count >= max_iterations` test fails after the `break`. -/
theorem c2_counterexample :
    runAgent demoAgent demoLoads demoModelAction "time?".data =
      ⟨unexpectedMsg, 3, 2⟩ ∧
    unexpectedMsg ≠ loopObs (.str "t") ∧
    unexpectedMsg ≠ iterLimitMsg := by
  refine ⟨by decide, by decide, by decide⟩

/-- C2 (amended): when the parsed action repeats the two previous
attempts, the third attempt terminates the run without invoking the tool
again, and the value returned is the fixed message
`"Agent stopped unexpectedly."` (the descriptive loop-detected text is
only emitted as a printed observation, not returned). -/
theorem c2_loop_detection (tools : Registry) (loads : Loads) (model : Model)
    (msgs : List Message) (r : List Json) (t tc args : Json) (fuel : Nat)
    (h1 : parseAction loads (model msgs) = .ok (some tc))
    (h2 : jsonFalsy tc = false)
    (h3 : pyGetItem tc "tool" = .ok t)
    (h4 : pyGetItem tc "args" = .ok args) :
    stepOnce tools loads model msgs (r ++ [t, t]) = ⟨.loopStop, false⟩ ∧
    runAux tools loads model (fuel + 1) msgs (r ++ [t, t]) = ⟨unexpectedMsg, 1, 0⟩ := by
  have happ : (r ++ [t, t]) ++ [t] = r ++ [t, t, t] := by simp
  have hloop : loopCond ((r ++ [t, t]) ++ [t]) t = true := by
    rw [happ]; exact loopCond_triple r t
  have hp : processResponse tools loads (model msgs) (r ++ [t, t]) =
      ⟨loopObs t, false, false, (r ++ [t, t]) ++ [t], true⟩ := by
    simp only [processResponse, h1, h2, h3, h4, hloop, Bool.false_eq_true, if_false,
      if_true]
  have hs : stepOnce tools loads model msgs (r ++ [t, t]) = ⟨.loopStop, false⟩ := by
    simp only [stepOnce, hp]
    simp
  refine ⟨hs, ?_⟩
  simp only [runAux, hs]
  simp

/-- C2 witness: at the third consecutive `t` the demo run stops with the
generic message, one further model call and no further tool call. -/
theorem c2_witness :
    stepOnce demoTools demoLoads demoModelAction []
        ([] ++ [Json.str "t", Json.str "t"]) = ⟨.loopStop, false⟩ ∧
    runAux demoTools demoLoads demoModelAction (12 + 1) []
        ([] ++ [Json.str "t", Json.str "t"]) = ⟨unexpectedMsg, 1, 0⟩ :=
  c2_loop_detection demoTools demoLoads demoModelAction [] [] (Json.str "t")
    demoJsonT (Json.obj []) 12 rfl rfl rfl rfl

/-- C3 counterexample: with `max_size = 10` and the prompt
`abcdefgh i jk`, the truncated text `abcdefgh i` has its last space at
index 8, exactly at 80% of the maximum (5·8 = 4·10), yet the result keeps
the hard character truncation instead of being cut at that space: the
code requires the index to be *strictly* beyond 80%. -/
theorem c3_counterexample :
    validateCustomPrompt (some "abcdefgh i jk".data) 10 = some "abcdefgh i".data ∧
    lastSpaceIdx (pyStrip ((pyStrip "abcdefgh i jk".data).take 10)) = some 8 ∧
    4 * 10 ≤ 5 * 8 ∧
    "abcdefgh i".data ≠ (pyStrip ((pyStrip "abcdefgh i jk".data).take 10)).take 8 := by
  decide

/-- C3 (amended): a trimmed prompt longer than the maximum is truncated to
at most the maximum, and whenever the truncated text contains a space
whose last index is *strictly beyond* 80% of the maximum length, the
result is cut at that space. -/
theorem c3_truncation (p : PyStr) (maxSize : Nat)
    (hover : maxSize < (pyStrip p).length) :
    ∃ r : PyStr, validateCustomPrompt (some p) maxSize = some r ∧
      r.length ≤ maxSize ∧
      (∀ last : Nat, lastSpaceIdx (pyStrip ((pyStrip p).take maxSize)) = some last →
        4 * maxSize < 5 * last →
        r = (pyStrip ((pyStrip p).take maxSize)).take last) := by
  have hpne : p.isEmpty = false := by
    cases hp : p with
    | nil => rw [hp] at hover; simp [pyStrip, pyLStrip, pyRStrip] at hover
    | cons c rest => rfl
  have hsne : (pyStrip p).isEmpty = false := by
    cases hs : pyStrip p with
    | nil => rw [hs] at hover; simp at hover
    | cons c rest => rfl
  have hlen2 : (pyStrip ((pyStrip p).take maxSize)).length ≤ maxSize := by
    calc (pyStrip ((pyStrip p).take maxSize)).length
        ≤ ((pyStrip p).take maxSize).length := pyStrip_length_le _
      _ ≤ maxSize := by simp
  simp only [validateCustomPrompt, hpne, hsne, Bool.false_eq_true, if_false, hover,
    if_true]
  rcases hls : lastSpaceIdx (pyStrip ((pyStrip p).take maxSize)) with _ | last
  · exact ⟨pyStrip ((pyStrip p).take maxSize), rfl, hlen2, by intro l hl; simp at hl⟩
  · rcases hcut : decide (4 * maxSize < 5 * last) with _ | _
    · have hcut' : ¬(4 * maxSize < 5 * last) := of_decide_eq_false hcut
      refine ⟨pyStrip ((pyStrip p).take maxSize), by simp [hcut'], hlen2, ?_⟩
      intro l hl hlt
      simp only [Option.some_inj] at hl
      subst hl
      exact absurd hlt hcut'
    · have hcut' : 4 * maxSize < 5 * last := of_decide_eq_true hcut
      refine ⟨(pyStrip ((pyStrip p).take maxSize)).take last, by simp [hcut'], ?_, ?_⟩
      · exact le_trans (by simp) hlen2
      · intro l hl _
        simp only [Option.some_inj] at hl
        subst hl
        rfl

/-- C3 witness: the prompt `abcdefghi jk` with maximum 10 truncates to the
word boundary at index 9 (strictly beyond 80%). -/
theorem c3_witness :
    ∃ r : PyStr, validateCustomPrompt (some "abcdefghi jk".data) 10 = some r ∧
      r.length ≤ 10 ∧
      (∀ last : Nat, lastSpaceIdx (pyStrip ((pyStrip "abcdefghi jk".data).take 10)) =
          some last →
        4 * 10 < 5 * last →
        r = (pyStrip ((pyStrip "abcdefghi jk".data).take 10)).take last) :=
  c3_truncation "abcdefghi jk".data 10 (by decide)

/-- C4: with `max_iterations = 1` and a model that never emits a final
answer, `run` returns the iteration-limit message after exactly one model
invocation; and in general the loop never calls the model more often than
`max_iterations`. -/
theorem c4_iteration_ceiling :
    (∀ (tools : Registry) (loads : Loads) (model : Model) (custom : Option PyStr)
       (input : PyStr),
       (∀ msgs : List Message, isFinalAnswer (model msgs) = false) →
       (runAgent ⟨tools, 1, custom⟩ loads model input).result = iterLimitMsg ∧
       (runAgent ⟨tools, 1, custom⟩ loads model input).modelCalls = 1) ∧
    (∀ (agent : Agent) (loads : Loads) (model : Model) (input : PyStr),
       (runAgent agent loads model input).modelCalls ≤ agent.maxIterations) := by
  constructor
  · intro tools loads model custom input hnf
    have hnb : (processResponse tools loads
        (model [⟨Role.system, generateSystemPrompt ⟨tools, 1, custom⟩⟩,
                ⟨Role.user, input⟩]) []).loopBreak = false := by
      rcases hb : (processResponse tools loads
          (model [⟨Role.system, generateSystemPrompt ⟨tools, 1, custom⟩⟩,
                  ⟨Role.user, input⟩]) []).loopBreak
      · rfl
      · have h2 := processResponse_loopBreak_length tools loads _ [] hb
        simp at h2
    have hstep := stepOnce_not_final tools loads model
      [⟨Role.system, generateSystemPrompt ⟨tools, 1, custom⟩⟩, ⟨Role.user, input⟩] []
      (hnf _) hnb
    have key : runAgent ⟨tools, 1, custom⟩ loads model input =
        runAux tools loads model (0 + 1)
          [⟨Role.system, generateSystemPrompt ⟨tools, 1, custom⟩⟩, ⟨Role.user, input⟩]
          [] := rfl
    rw [key]
    simp only [runAux, hstep]
    simp
  · intro agent loads model input
    exact runAux_modelCalls_le agent.tools loads model agent.maxIterations _ _

/-- C4 witness: a model that always answers `hello` under budget 1 yields
the iteration-limit message after one call, and the looping demo run
respects the budget of 15. -/
theorem c4_witness :
    ((runAgent ⟨demoTools, 1, none⟩ demoLoads (fun _ => "hello".data) "q".data).result =
        iterLimitMsg ∧
     (runAgent ⟨demoTools, 1, none⟩ demoLoads (fun _ => "hello".data) "q".data).modelCalls =
        1) ∧
    (runAgent demoAgent demoLoads demoModelAction "q".data).modelCalls ≤
      demoAgent.maxIterations :=
  ⟨c4_iteration_ceiling.1 demoTools demoLoads (fun _ => "hello".data) none "q".data
      (fun _ => (by decide : isFinalAnswer "hello".data = false)),
   c4_iteration_ceiling.2 demoAgent demoLoads demoModelAction "q".data⟩

/-- C8: a response whose first action line has an unparsable payload does
not crash the run — the failure becomes an observation carrying the decode
detail, no tool is executed, and the loop continues with the exchange
appended (stated for responses without a final-answer marker, which would
otherwise return the answer). -/
theorem c8_malformed_recovers (tools : Registry) (loads : Loads) (model : Model)
    (msgs : List Message) (recent : List Json) (pre rest : List PyStr) (line : PyStr)
    (e : PyStr)
    (hsplit : splitlines (model msgs) = pre ++ line :: rest)
    (hpre : ∀ l ∈ pre, isActionLine l = false)
    (hline : isActionLine line = true)
    (herr : loads (parseActionPayload line) = .error e)
    (hfa : isFinalAnswer (model msgs) = false) :
    processResponse tools loads (model msgs) recent =
      ⟨errObs ("Invalid JSON in action: ".data ++ e), false, false, recent, false⟩ ∧
    stepOnce tools loads model msgs recent =
      ⟨.next (msgs ++ [⟨.assistant, model msgs⟩,
        ⟨.user, errObs ("Invalid JSON in action: ".data ++ e)⟩]) recent, false⟩ := by
  have hparse : parseAction loads (model msgs) =
      .error ("Invalid JSON in action: ".data ++ e) := by
    unfold parseAction
    rw [hsplit, parseActionLines_skip loads pre (line :: rest) hpre]
    simp [parseActionLines, hline, parseActionLine, herr]
  have hp : processResponse tools loads (model msgs) recent =
      ⟨errObs ("Invalid JSON in action: ".data ++ e), false, false, recent, false⟩ := by
    simp only [processResponse, hparse]
  refine ⟨hp, ?_⟩
  simp only [stepOnce, hp, hfa]
  simp

/-- C8 witness: `Action: not-json` yields the malformed-action observation
and the loop continues. -/
theorem c8_witness :
    processResponse demoTools demoLoads demoMalformedContent [] =
      ⟨errObs ("Invalid JSON in action: ".data ++
        "Expecting value: line 1 column 1 (char 0)".data), false, false, [], false⟩ ∧
    stepOnce demoTools demoLoads demoModelMalformed [] [] =
      ⟨.next ([] ++ [⟨.assistant, demoMalformedContent⟩,
        ⟨.user, errObs ("Invalid JSON in action: ".data ++
          "Expecting value: line 1 column 1 (char 0)".data)⟩]) [], false⟩ :=
  c8_malformed_recovers demoTools demoLoads demoModelMalformed [] [] []
    [] demoMalformedContent "Expecting value: line 1 column 1 (char 0)".data
    (by decide) (by intro l hl; simp at hl) (by decide) rfl (by decide)

/-- C10: the history invariant — each non-terminating iteration appends
exactly the assistant response followed by the observation, and after `k`
completed iterations the history is the untouched two initial messages
followed by `2 k` appended ones. -/
theorem c10_history_invariant :
    (∀ (tools : Registry) (loads : Loads) (model : Model) (msgs : List Message)
       (recent : List Json) (m : List Message) (r : List Json),
       (stepOnce tools loads model msgs recent).out = .next m r →
       m = msgs ++ [⟨.assistant, model msgs⟩,
         ⟨.user, (processResponse tools loads (model msgs) recent).observation⟩]) ∧
    (∀ (agent : Agent) (loads : Loads) (model : Model) (input : PyStr) (k : Nat)
       (msgs : List Message) (rec : List Json),
       histAt agent.tools loads model k
         [⟨Role.system, generateSystemPrompt agent⟩, ⟨Role.user, input⟩] [] =
           some (msgs, rec) →
       msgs.take 2 = [⟨Role.system, generateSystemPrompt agent⟩, ⟨Role.user, input⟩] ∧
       msgs.length = 2 + 2 * k) := by
  constructor
  · intro tools loads model msgs recent m r h
    exact (stepOnce_next_eq tools loads model msgs recent m r h).1
  · intro agent loads model input k msgs rec h
    obtain ⟨extra, hm, hlen⟩ := histAt_append agent.tools loads model k _ [] msgs rec h
    subst hm
    constructor
    · have h2 : ([⟨Role.system, generateSystemPrompt agent⟩,
          (⟨Role.user, input⟩ : Message)]).length = 2 := rfl
      rw [← h2]
      exact List.take_left _ _
    · simp [hlen]
      omega

/-- C10 witness: after one completed iteration of the demo run the history
is the two initial messages plus the assistant/observation pair. -/
theorem c10_witness :
    [⟨Role.system, generateSystemPrompt demoAgent⟩, (⟨Role.user, "q".data⟩ : Message),
     ⟨Role.assistant, demoActionContent⟩,
     ⟨Role.user, "Observation: 12:00:00".data⟩].take 2 =
      [⟨Role.system, generateSystemPrompt demoAgent⟩, (⟨Role.user, "q".data⟩ : Message)] ∧
    ([⟨Role.system, generateSystemPrompt demoAgent⟩, (⟨Role.user, "q".data⟩ : Message),
      ⟨Role.assistant, demoActionContent⟩,
      ⟨Role.user, "Observation: 12:00:00".data⟩] : List Message).length = 2 + 2 * 1 :=
  c10_history_invariant.2 demoAgent demoLoads demoModelAction "q".data 1
    [⟨Role.system, generateSystemPrompt demoAgent⟩, ⟨Role.user, "q".data⟩,
     ⟨Role.assistant, demoActionContent⟩,
     ⟨Role.user, "Observation: 12:00:00".data⟩] [Json.str "t"] rfl

end IterBot
